import Mathlib

/-!
Shallow embedding of the OTP backend (`server.js`): the in-memory OTP store
(a JavaScript `Map` from identifier to record), the functions `generateOTP`,
`storeOTP`, `verifyOTP`, and the body of the periodic expiry sweeper, together
with theorems about the verification state machine, the store invariants and
the code generator.
-/

/-- An OTP record as stored in `otpStore`: the JavaScript object
`{ otp, expiresAt, attempts }` built by `storeOTP`.  Timestamps are
milliseconds since the epoch (`Date.now()`), modelled as `Nat`. -/
structure OTPRecord where
  otp : String
  expiresAt : Nat
  attempts : Nat
  deriving Repr, DecidableEq

/-- The result object `{ success, message }` returned by `verifyOTP`. -/
structure VerifyResult where
  success : Bool
  message : String
  deriving Repr, DecidableEq

/-- The `otpStore` map, modelled as an association list in insertion order
(JavaScript `Map` iteration order).  Every store reachable by the program has
unique keys; `StoreWF` states that where a proof needs it. -/
abbrev Store := List (String × OTPRecord)

/-- JavaScript `Map.prototype.get`: the value stored under `key`, if any. -/
def mapGet : Store → String → Option OTPRecord
  | [], _ => none
  | (k, v) :: rest, key => if k = key then some v else mapGet rest key

/-- JavaScript `Map.prototype.set`: replace the entry in place when the key is
present, otherwise append a new entry. -/
def mapSet : Store → String → OTPRecord → Store
  | [], key, val => [(key, val)]
  | (k, v) :: rest, key, val =>
    if k = key then (key, val) :: rest else (k, v) :: mapSet rest key val

/-- JavaScript `Map.prototype.delete`: remove the entry stored under `key`. -/
def mapDelete : Store → String → Store
  | [], _ => []
  | (k, v) :: rest, key => if k = key then rest else (k, v) :: mapDelete rest key

/-- The expiration offset hard-coded in `storeOTP`: `10 * 60 * 1000`
milliseconds, i.e. 10 minutes. -/
def otpTTL : Nat := 10 * 60 * 1000

/-- `storeOTP(identifier, otp)` called at time `now` (`Date.now()`):
`otpStore.set(identifier, { otp, expiresAt: now + 10*60*1000, attempts: 0 })`. -/
def storeOTP (store : Store) (identifier otp : String) (now : Nat) : Store :=
  mapSet store identifier { otp := otp, expiresAt := now + otpTTL, attempts := 0 }

/-- The result literal for a missing record. -/
def notFoundResult : VerifyResult :=
  { success := false, message := "OTP not found or expired" }

/-- The result literal for an expired record. -/
def expiredResult : VerifyResult :=
  { success := false, message := "OTP has expired" }

/-- The result literal for a record that hit the attempt cap. -/
def lockedOutResult : VerifyResult :=
  { success := false, message := "Maximum attempts exceeded" }

/-- The result literal for a wrong submitted code. -/
def mismatchResult : VerifyResult :=
  { success := false, message := "Invalid OTP" }

/-- The result literal for a successful verification. -/
def successResult : VerifyResult :=
  { success := true, message := "OTP verified successfully" }

/-- `verifyOTP(identifier, otp)` called at time `now`, returning the result
object and the store after the call.  The branches appear in source order:
missing record, expiry, attempt cap, mismatch (which mutates `attempts` on the
stored object, i.e. re-stores the record with `attempts + 1`), success. -/
def verifyOTP (store : Store) (identifier otp : String) (now : Nat) :
    VerifyResult × Store :=
  match mapGet store identifier with
  | none => (notFoundResult, store)
  | some storedData =>
    if now > storedData.expiresAt then
      (expiredResult, mapDelete store identifier)
    else if storedData.attempts ≥ 3 then
      (lockedOutResult, mapDelete store identifier)
    else if storedData.otp ≠ otp then
      (mismatchResult,
        mapSet store identifier { storedData with attempts := storedData.attempts + 1 })
    else
      (successResult, mapDelete store identifier)

/-- The body of the `setInterval` sweeper run at time `now`: delete every
entry with `now > data.expiresAt`, keep the rest in order. -/
def sweepExpired (store : Store) (now : Nat) : Store :=
  store.filter (fun e => !decide (now > e.2.expiresAt))

/-- How many records a sweeper run at time `now` removes. -/
def sweepRemovedCount (store : Store) (now : Nat) : Nat :=
  store.length - (sweepExpired store now).length

/-- `generateOTP()` computes `Math.floor(100000 + Math.random() * 900000)`;
the random source `Math.random()` is modelled as a rational `r` with
`0 ≤ r < 1`.  This is the numeric value before `.toString()`. -/
def genValue (r : ℚ) : Nat := ⌊(100000 : ℚ) + r * 900000⌋₊

/-- Decimal digit characters, as produced by `Number.prototype.toString()`. -/
def digitChar (d : Nat) : Char := Char.ofNat (48 + d)

/-- `Number.prototype.toString()` on a natural number: its decimal digits,
most significant first. -/
def natToString (n : Nat) : String :=
  ((Nat.digits 10 n).reverse.map digitChar).asString

/-- `generateOTP()`: the string of the generated value. -/
def generateOTP (r : ℚ) : String := natToString (genValue r)

/-- One core operation on the shared `otpStore`. -/
inductive StoreOp where
  | issue (identifier code : String) (now : Nat)
  | verify (identifier code : String) (now : Nat)
  | sweep (now : Nat)

/-- Effect of one operation on the store. -/
def applyOp (store : Store) : StoreOp → Store
  | .issue identifier code now => storeOTP store identifier code now
  | .verify identifier code now => (verifyOTP store identifier code now).2
  | .sweep now => sweepExpired store now

/-- The store reached by running `ops` in order from the empty initial store. -/
def runOps (ops : List StoreOp) : Store := ops.foldl applyOp []

/-- The identifiers present in a store. -/
def keys (s : Store) : List String := s.map Prod.fst

/-- Well-formedness of a store: each identifier appears at most once
(the `Map` keying invariant; it holds in every reachable store). -/
def StoreWF (s : Store) : Prop := (keys s).Nodup

/-- Number of entries stored under `k`. -/
def countKey (s : Store) (k : String) : Nat :=
  (s.filter (fun e => decide (e.1 = k))).length


/-! ### Map lemmas -/

theorem mapGet_cons (k₀ key : String) (v₀ : OTPRecord) (rest : Store) :
    mapGet ((k₀, v₀) :: rest) key = if k₀ = key then some v₀ else mapGet rest key := rfl

theorem mapSet_cons_self (k : String) (v₀ v : OTPRecord) (rest : Store) :
    mapSet ((k, v₀) :: rest) k v = (k, v) :: rest := by
  simp [mapSet]

theorem mapSet_cons_ne (k₀ k : String) (v₀ v : OTPRecord) (rest : Store)
    (h : k₀ ≠ k) : mapSet ((k₀, v₀) :: rest) k v = (k₀, v₀) :: mapSet rest k v := by
  simp [mapSet, h]

theorem mapDelete_cons_self (k : String) (v₀ : OTPRecord) (rest : Store) :
    mapDelete ((k, v₀) :: rest) k = rest := by
  simp [mapDelete]

theorem mapDelete_cons_ne (k₀ k : String) (v₀ : OTPRecord) (rest : Store)
    (h : k₀ ≠ k) : mapDelete ((k₀, v₀) :: rest) k = (k₀, v₀) :: mapDelete rest k := by
  simp [mapDelete, h]

theorem mapGet_mapSet_self (s : Store) (k : String) (v : OTPRecord) :
    mapGet (mapSet s k v) k = some v := by
  induction s with
  | nil => simp [mapSet, mapGet]
  | cons e rest ih =>
    obtain ⟨k₀, v₀⟩ := e
    by_cases h₀ : k₀ = k
    · subst h₀
      rw [mapSet_cons_self, mapGet_cons, if_pos rfl]
    · rw [mapSet_cons_ne _ _ _ _ _ h₀, mapGet_cons, if_neg h₀, ih]

theorem mapGet_mapSet_ne (s : Store) (k k' : String) (v : OTPRecord)
    (h : k' ≠ k) : mapGet (mapSet s k v) k' = mapGet s k' := by
  induction s with
  | nil => simp [mapSet, mapGet, Ne.symm h]
  | cons e rest ih =>
    obtain ⟨k₀, v₀⟩ := e
    by_cases h₀ : k₀ = k
    · subst h₀
      rw [mapSet_cons_self, mapGet_cons, mapGet_cons, if_neg (Ne.symm h), if_neg (Ne.symm h)]
    · rw [mapSet_cons_ne _ _ _ _ _ h₀, mapGet_cons, mapGet_cons, ih]

theorem mapGet_mapDelete_ne (s : Store) (k k' : String) (h : k' ≠ k) :
    mapGet (mapDelete s k) k' = mapGet s k' := by
  induction s with
  | nil => simp [mapDelete]
  | cons e rest ih =>
    obtain ⟨k₀, v₀⟩ := e
    by_cases h₀ : k₀ = k
    · subst h₀
      rw [mapDelete_cons_self, mapGet_cons, if_neg (Ne.symm h)]
    · rw [mapDelete_cons_ne _ _ _ _ h₀, mapGet_cons, mapGet_cons, ih]

theorem mapGet_eq_none_of_not_mem (s : Store) (k : String) (h : k ∉ keys s) :
    mapGet s k = none := by
  induction s with
  | nil => simp [mapGet]
  | cons e rest ih =>
    obtain ⟨k₀, v₀⟩ := e
    simp only [keys, List.map_cons, List.mem_cons, not_or] at h
    rw [mapGet_cons, if_neg (Ne.symm h.1)]
    exact ih (by simpa [keys] using h.2)

theorem mapGet_mapDelete_self (s : Store) (k : String) (hwf : StoreWF s) :
    mapGet (mapDelete s k) k = none := by
  induction s with
  | nil => simp [mapDelete, mapGet]
  | cons e rest ih =>
    obtain ⟨k₀, v₀⟩ := e
    simp only [StoreWF, keys, List.map_cons, List.nodup_cons] at hwf
    by_cases h₀ : k₀ = k
    · subst h₀
      rw [mapDelete_cons_self]
      exact mapGet_eq_none_of_not_mem rest k₀ (by simpa [keys] using hwf.1)
    · rw [mapDelete_cons_ne _ _ _ _ h₀, mapGet_cons, if_neg h₀]
      exact ih hwf.2

theorem mem_keys_mapSet (s : Store) (k a : String) (v : OTPRecord) :
    a ∈ keys (mapSet s k v) ↔ a ∈ keys s ∨ a = k := by
  induction s with
  | nil => simp [mapSet, keys]
  | cons e rest ih =>
    obtain ⟨k₀, v₀⟩ := e
    by_cases h₀ : k₀ = k
    · subst h₀
      rw [mapSet_cons_self]
      simp only [keys, List.map_cons, List.mem_cons]
      tauto
    · rw [mapSet_cons_ne _ _ _ _ _ h₀]
      simp only [keys, List.map_cons, List.mem_cons] at ih ⊢
      rw [ih]
      tauto

theorem mem_keys_of_mem_keys_mapDelete (s : Store) (k a : String)
    (h : a ∈ keys (mapDelete s k)) : a ∈ keys s := by
  induction s with
  | nil => simpa [mapDelete] using h
  | cons e rest ih =>
    obtain ⟨k₀, v₀⟩ := e
    simp only [keys, List.map_cons, List.mem_cons]
    by_cases h₀ : k₀ = k
    · subst h₀
      rw [mapDelete_cons_self] at h
      right
      simpa [keys] using h
    · rw [mapDelete_cons_ne _ _ _ _ h₀] at h
      simp only [keys, List.map_cons, List.mem_cons] at h
      rcases h with h | h
      · left; exact h
      · right; exact ih (by simpa [keys] using h)

theorem StoreWF_mapSet (s : Store) (k : String) (v : OTPRecord)
    (hwf : StoreWF s) : StoreWF (mapSet s k v) := by
  induction s with
  | nil => simp [StoreWF, mapSet, keys]
  | cons e rest ih =>
    obtain ⟨k₀, v₀⟩ := e
    simp only [StoreWF, keys, List.map_cons, List.nodup_cons] at hwf
    by_cases h₀ : k₀ = k
    · subst h₀
      rw [mapSet_cons_self]
      simp only [StoreWF, keys, List.map_cons, List.nodup_cons]
      exact hwf
    · rw [mapSet_cons_ne _ _ _ _ _ h₀]
      simp only [StoreWF, keys, List.map_cons, List.nodup_cons]
      refine ⟨fun hmem => ?_, ih hwf.2⟩
      rcases (mem_keys_mapSet rest k k₀ v).mp (by simpa [keys] using hmem) with h | h
      · exact hwf.1 (by simpa [keys] using h)
      · exact h₀ h

theorem StoreWF_mapDelete (s : Store) (k : String) (hwf : StoreWF s) :
    StoreWF (mapDelete s k) := by
  induction s with
  | nil => simpa [mapDelete] using hwf
  | cons e rest ih =>
    obtain ⟨k₀, v₀⟩ := e
    simp only [StoreWF, keys, List.map_cons, List.nodup_cons] at hwf
    by_cases h₀ : k₀ = k
    · subst h₀
      rw [mapDelete_cons_self]
      exact hwf.2
    · rw [mapDelete_cons_ne _ _ _ _ h₀]
      simp only [StoreWF, keys, List.map_cons, List.nodup_cons]
      refine ⟨fun hmem => ?_, ih hwf.2⟩
      exact hwf.1 (by
        simpa [keys] using mem_keys_of_mem_keys_mapDelete rest k k₀ (by simpa [keys] using hmem))

theorem StoreWF_sweepExpired (s : Store) (now : Nat) (hwf : StoreWF s) :
    StoreWF (sweepExpired s now) := by
  have hsub : List.Sublist ((sweepExpired s now).map Prod.fst) (s.map Prod.fst) :=
    (List.filter_sublist s).map Prod.fst
  exact List.Nodup.sublist hsub hwf

theorem mem_of_mem_mapSet (s : Store) (k : String) (v : OTPRecord)
    (e : String × OTPRecord) (h : e ∈ mapSet s k v) : e ∈ s ∨ e = (k, v) := by
  induction s with
  | nil => simpa [mapSet] using h
  | cons e₀ rest ih =>
    obtain ⟨k₀, v₀⟩ := e₀
    by_cases h₀ : k₀ = k
    · subst h₀
      rw [mapSet_cons_self] at h
      simp only [List.mem_cons] at h ⊢
      tauto
    · rw [mapSet_cons_ne _ _ _ _ _ h₀] at h
      simp only [List.mem_cons] at h ⊢
      rcases h with h | h
      · tauto
      · rcases ih h with h | h <;> tauto

theorem mem_of_mem_mapDelete (s : Store) (k : String)
    (e : String × OTPRecord) (h : e ∈ mapDelete s k) : e ∈ s := by
  induction s with
  | nil => simp [mapDelete] at h
  | cons e₀ rest ih =>
    obtain ⟨k₀, v₀⟩ := e₀
    by_cases h₀ : k₀ = k
    · subst h₀
      rw [mapDelete_cons_self] at h
      simp [h]
    · rw [mapDelete_cons_ne _ _ _ _ h₀] at h
      simp only [List.mem_cons] at h ⊢
      rcases h with h | h
      · tauto
      · exact Or.inr (ih h)

theorem mem_sweepExpired (s : Store) (now : Nat) (e : String × OTPRecord) :
    e ∈ sweepExpired s now ↔ e ∈ s ∧ ¬ now > e.2.expiresAt := by
  simp [sweepExpired, List.mem_filter]

/-! ### Branch lemmas for `verifyOTP` -/

theorem verifyOTP_none (store : Store) (identifier code : String) (now : Nat)
    (h : mapGet store identifier = none) :
    verifyOTP store identifier code now = (notFoundResult, store) := by
  simp [verifyOTP, h]

theorem verifyOTP_expired (store : Store) (identifier code : String) (now : Nat)
    (r : OTPRecord) (h : mapGet store identifier = some r) (hexp : now > r.expiresAt) :
    verifyOTP store identifier code now = (expiredResult, mapDelete store identifier) := by
  simp [verifyOTP, h, hexp]

theorem verifyOTP_locked (store : Store) (identifier code : String) (now : Nat)
    (r : OTPRecord) (h : mapGet store identifier = some r) (hexp : ¬ now > r.expiresAt)
    (hatt : r.attempts ≥ 3) :
    verifyOTP store identifier code now = (lockedOutResult, mapDelete store identifier) := by
  simp [verifyOTP, h, hexp, hatt]

theorem verifyOTP_mismatch (store : Store) (identifier code : String) (now : Nat)
    (r : OTPRecord) (h : mapGet store identifier = some r) (hexp : ¬ now > r.expiresAt)
    (hatt : r.attempts < 3) (hne : r.otp ≠ code) :
    verifyOTP store identifier code now =
      (mismatchResult, mapSet store identifier { r with attempts := r.attempts + 1 }) := by
  simp [verifyOTP, h, hexp, Nat.not_le.mpr hatt, hne]

theorem verifyOTP_success (store : Store) (identifier code : String) (now : Nat)
    (r : OTPRecord) (h : mapGet store identifier = some r) (hexp : ¬ now > r.expiresAt)
    (hatt : r.attempts < 3) (heq : r.otp = code) :
    verifyOTP store identifier code now = (successResult, mapDelete store identifier) := by
  simp [verifyOTP, h, hexp, Nat.not_le.mpr hatt, heq]

theorem mapGet_mem (s : Store) (k : String) (v : OTPRecord)
    (h : mapGet s k = some v) : (k, v) ∈ s := by
  induction s with
  | nil => simp [mapGet] at h
  | cons e rest ih =>
    obtain ⟨k₀, v₀⟩ := e
    rw [mapGet_cons] at h
    by_cases h₀ : k₀ = k
    · rw [if_pos h₀] at h
      subst h₀
      obtain rfl : v₀ = v := by simpa using h
      simp
    · rw [if_neg h₀] at h
      simp [ih h]

/-! ### Claim theorems -/

/-- C1: for every identifier and submitted code, `verifyOTP` evaluates exactly
these cases in strict order: no record → `NotFound` with message
"OTP not found or expired" and no store mutation; else `now > expiresAt` →
delete the record and `Expired`; else `attempts >= 3` → delete the record and
`LockedOut`; else a differing submitted code → increment `attempts`, retain
the record, `Mismatch`; else delete the record and `Success`. -/
theorem verifyOTP_case_analysis (store : Store) (identifier code : String) (now : Nat) :
    (mapGet store identifier = none →
      verifyOTP store identifier code now = (notFoundResult, store)) ∧
    (∀ r : OTPRecord, mapGet store identifier = some r → now > r.expiresAt →
      verifyOTP store identifier code now = (expiredResult, mapDelete store identifier)) ∧
    (∀ r : OTPRecord, mapGet store identifier = some r → ¬ now > r.expiresAt →
      r.attempts ≥ 3 →
      verifyOTP store identifier code now = (lockedOutResult, mapDelete store identifier)) ∧
    (∀ r : OTPRecord, mapGet store identifier = some r → ¬ now > r.expiresAt →
      ¬ r.attempts ≥ 3 → r.otp ≠ code →
      verifyOTP store identifier code now =
        (mismatchResult, mapSet store identifier { r with attempts := r.attempts + 1 })) ∧
    (∀ r : OTPRecord, mapGet store identifier = some r → ¬ now > r.expiresAt →
      ¬ r.attempts ≥ 3 → r.otp = code →
      verifyOTP store identifier code now = (successResult, mapDelete store identifier)) := by
  refine ⟨fun h => verifyOTP_none store identifier code now h,
    fun r h hexp => verifyOTP_expired store identifier code now r h hexp,
    fun r h hexp hatt => verifyOTP_locked store identifier code now r h hexp hatt,
    fun r h hexp hatt hne =>
      verifyOTP_mismatch store identifier code now r h hexp (Nat.lt_of_not_le hatt) hne,
    fun r h hexp hatt heq =>
      verifyOTP_success store identifier code now r h hexp (Nat.lt_of_not_le hatt) heq⟩

/-- Witness for C1: each of the five cases realized at a concrete input. -/
theorem verifyOTP_case_analysis_witness :
    verifyOTP [] "a" "1" 5 = (notFoundResult, []) ∧
    verifyOTP [("a", ⟨"1", 3, 0⟩)] "a" "1" 5 =
      (expiredResult, mapDelete [("a", ⟨"1", 3, 0⟩)] "a") ∧
    verifyOTP [("a", ⟨"1", 9, 3⟩)] "a" "1" 5 =
      (lockedOutResult, mapDelete [("a", ⟨"1", 9, 3⟩)] "a") ∧
    verifyOTP [("a", ⟨"1", 9, 1⟩)] "a" "2" 5 =
      (mismatchResult, mapSet [("a", ⟨"1", 9, 1⟩)] "a" ⟨"1", 9, 2⟩) ∧
    verifyOTP [("a", ⟨"1", 9, 1⟩)] "a" "1" 5 =
      (successResult, mapDelete [("a", ⟨"1", 9, 1⟩)] "a") :=
  ⟨(verifyOTP_case_analysis [] "a" "1" 5).1 (by decide),
    (verifyOTP_case_analysis [("a", ⟨"1", 3, 0⟩)] "a" "1" 5).2.1 ⟨"1", 3, 0⟩
      (by decide) (by decide),
    (verifyOTP_case_analysis [("a", ⟨"1", 9, 3⟩)] "a" "1" 5).2.2.1 ⟨"1", 9, 3⟩
      (by decide) (by decide) (by decide),
    (verifyOTP_case_analysis [("a", ⟨"1", 9, 1⟩)] "a" "2" 5).2.2.2.1 ⟨"1", 9, 1⟩
      (by decide) (by decide) (by decide) (by decide),
    (verifyOTP_case_analysis [("a", ⟨"1", 9, 1⟩)] "a" "1" 5).2.2.2.2 ⟨"1", 9, 1⟩
      (by decide) (by decide) (by decide) (by decide)⟩

/-- C2: when the record for an identifier has `attempts = 3` and is not
expired, the next `verifyOTP` call — with any submitted code, including the
stored one — returns `LockedOut` and deletes the record; the outcome is
identical for every submitted code, so the code is never compared. -/
theorem verify_lockedOut_at_cap (store : Store) (identifier code : String) (now : Nat)
    (r : OTPRecord) (hwf : StoreWF store) (hget : mapGet store identifier = some r)
    (hexp : ¬ now > r.expiresAt) (hatt : r.attempts = 3) :
    verifyOTP store identifier code now = (lockedOutResult, mapDelete store identifier) ∧
    mapGet (verifyOTP store identifier code now).2 identifier = none ∧
    (∀ other : String, verifyOTP store identifier other now =
      verifyOTP store identifier code now) := by
  have hge : r.attempts ≥ 3 := Nat.le_of_eq hatt.symm
  have h := verifyOTP_locked store identifier code now r hget hexp hge
  refine ⟨h, ?_, fun other => ?_⟩
  · rw [h]
    exact mapGet_mapDelete_self store identifier hwf
  · rw [h, verifyOTP_locked store identifier other now r hget hexp hge]

/-- Witness for C2: a record at the attempt cap, verified with the correct
stored code, is still locked out; the result matches that of a wrong code. -/
theorem verify_lockedOut_at_cap_witness :
    verifyOTP [("a", ⟨"111111", 10, 3⟩)] "a" "111111" 5 =
      (lockedOutResult, mapDelete [("a", ⟨"111111", 10, 3⟩)] "a") ∧
    mapGet (verifyOTP [("a", ⟨"111111", 10, 3⟩)] "a" "111111" 5).2 "a" = none ∧
    verifyOTP [("a", ⟨"111111", 10, 3⟩)] "a" "000000" 5 =
      verifyOTP [("a", ⟨"111111", 10, 3⟩)] "a" "111111" 5 := by
  have h := verify_lockedOut_at_cap [("a", ⟨"111111", 10, 3⟩)] "a" "111111" 5
    ⟨"111111", 10, 3⟩ (by simp [StoreWF, keys]) (by decide) (by decide) rfl
  exact ⟨h.1, h.2.1, h.2.2 "000000"⟩

/-- C3 counterexample: issue at time 0 and verify with a wrong code at times
1, 2, 3.  All three calls return `Mismatch`, but after the third call the
record is still in the store with `attempts = 3` — the third mismatched call
does not delete it (only the next call would, as `LockedOut`). -/
theorem third_mismatch_retains_record_cex :
    (verifyOTP (storeOTP [] "a" "111111" 0) "a" "000000" 1).1 = mismatchResult ∧
    (verifyOTP (verifyOTP (storeOTP [] "a" "111111" 0) "a" "000000" 1).2
      "a" "000000" 2).1 = mismatchResult ∧
    (verifyOTP (verifyOTP (verifyOTP (storeOTP [] "a" "111111" 0) "a" "000000" 1).2
      "a" "000000" 2).2 "a" "000000" 3).1 = mismatchResult ∧
    mapGet (verifyOTP (verifyOTP (verifyOTP (storeOTP [] "a" "111111" 0) "a" "000000" 1).2
      "a" "000000" 2).2 "a" "000000" 3).2 "a" = some ⟨"111111", 600000, 3⟩ := by
  decide

/-- C3 amended: from a freshly issued, unexpired record, three consecutive
mismatched verifies all return `Mismatch`; the third call retains the record
with `attempts = 3` (it is deleted only by the next verify call). -/
theorem three_mismatches_retain_record (store : Store) (identifier correct w1 w2 w3 : String)
    (t0 t1 t2 t3 : Nat) (h1 : w1 ≠ correct) (h2 : w2 ≠ correct) (h3 : w3 ≠ correct)
    (ht1 : ¬ t1 > t0 + otpTTL) (ht2 : ¬ t2 > t0 + otpTTL) (ht3 : ¬ t3 > t0 + otpTTL) :
    (verifyOTP (storeOTP store identifier correct t0) identifier w1 t1).1 = mismatchResult ∧
    (verifyOTP (verifyOTP (storeOTP store identifier correct t0) identifier w1 t1).2
      identifier w2 t2).1 = mismatchResult ∧
    (verifyOTP (verifyOTP (verifyOTP (storeOTP store identifier correct t0) identifier
      w1 t1).2 identifier w2 t2).2 identifier w3 t3).1 = mismatchResult ∧
    mapGet (verifyOTP (verifyOTP (verifyOTP (storeOTP store identifier correct t0) identifier
      w1 t1).2 identifier w2 t2).2 identifier w3 t3).2 identifier =
      some { otp := correct, expiresAt := t0 + otpTTL, attempts := 3 } := by
  have hr0 : mapGet (storeOTP store identifier correct t0) identifier =
      some { otp := correct, expiresAt := t0 + otpTTL, attempts := 0 } :=
    mapGet_mapSet_self store identifier _
  have hp1 := verifyOTP_mismatch (storeOTP store identifier correct t0) identifier w1 t1
    _ hr0 ht1 (by show (0:Nat) < 3; decide) (Ne.symm h1)
  have hr1 : mapGet (verifyOTP (storeOTP store identifier correct t0) identifier w1 t1).2
      identifier = some { otp := correct, expiresAt := t0 + otpTTL, attempts := 1 } := by
    rw [hp1]
    exact mapGet_mapSet_self _ identifier _
  have hp2 := verifyOTP_mismatch
    (verifyOTP (storeOTP store identifier correct t0) identifier w1 t1).2 identifier w2 t2
    _ hr1 ht2 (by show (1:Nat) < 3; decide) (Ne.symm h2)
  have hr2 : mapGet (verifyOTP (verifyOTP (storeOTP store identifier correct t0) identifier
      w1 t1).2 identifier w2 t2).2 identifier =
      some { otp := correct, expiresAt := t0 + otpTTL, attempts := 2 } := by
    rw [hp2]
    exact mapGet_mapSet_self _ identifier _
  have hp3 := verifyOTP_mismatch
    (verifyOTP (verifyOTP (storeOTP store identifier correct t0) identifier w1 t1).2
      identifier w2 t2).2 identifier w3 t3 _ hr2 ht3 (by show (2:Nat) < 3; decide) (Ne.symm h3)
  have hr3 : mapGet (verifyOTP (verifyOTP (verifyOTP (storeOTP store identifier correct t0)
      identifier w1 t1).2 identifier w2 t2).2 identifier w3 t3).2 identifier =
      some { otp := correct, expiresAt := t0 + otpTTL, attempts := 3 } := by
    rw [hp3]
    exact mapGet_mapSet_self _ identifier _
  exact ⟨by rw [hp1], by rw [hp2], by rw [hp3], hr3⟩

/-- Witness for the amended C3 at a concrete input. -/
theorem three_mismatches_retain_record_witness :
    (verifyOTP (storeOTP [] "a" "111111" 0) "a" "000000" 1).1 = mismatchResult ∧
    (verifyOTP (verifyOTP (storeOTP [] "a" "111111" 0) "a" "000000" 1).2
      "a" "000000" 2).1 = mismatchResult ∧
    (verifyOTP (verifyOTP (verifyOTP (storeOTP [] "a" "111111" 0) "a" "000000" 1).2
      "a" "000000" 2).2 "a" "000000" 3).1 = mismatchResult ∧
    mapGet (verifyOTP (verifyOTP (verifyOTP (storeOTP [] "a" "111111" 0) "a" "000000" 1).2
      "a" "000000" 2).2 "a" "000000" 3).2 "a" =
      some { otp := "111111", expiresAt := 0 + otpTTL, attempts := 3 } :=
  three_mismatches_retain_record [] "a" "111111" "000000" "000000" "000000" 0 1 2 3
    (by decide) (by decide) (by decide) (by decide) (by decide) (by decide)

/-- C4: `storeOTP` inserts or overwrites the record for the identifier with
`attempts = 0` and `expiresAt = now + TTL`, where the TTL is 10 minutes in
milliseconds; the implied issuance time `expiresAt - TTL` equals `now`.  The
operation is total (never fails). -/
theorem storeOTP_fresh_record (store : Store) (identifier code : String) (now : Nat) :
    mapGet (storeOTP store identifier code now) identifier =
      some { otp := code, expiresAt := now + otpTTL, attempts := 0 } ∧
    otpTTL = 10 * 60 * 1000 ∧
    (now + otpTTL) - otpTTL = now :=
  ⟨mapGet_mapSet_self store identifier _, rfl, by omega⟩

/-- C6: verifying the correct code after issue (before expiry, attempts below
the cap) returns `Success`; the record is consumed, so a second verify for the
same identifier with the same code returns `NotFound`. -/
theorem verify_success_consumes_record (store : Store) (identifier code : String)
    (t0 t1 t2 : Nat) (hwf : StoreWF store) (ht1 : ¬ t1 > t0 + otpTTL) :
    (verifyOTP (storeOTP store identifier code t0) identifier code t1).1 = successResult ∧
    mapGet (verifyOTP (storeOTP store identifier code t0) identifier code t1).2 identifier
      = none ∧
    (verifyOTP (verifyOTP (storeOTP store identifier code t0) identifier code t1).2
      identifier code t2).1 = notFoundResult := by
  have hr : mapGet (storeOTP store identifier code t0) identifier =
      some { otp := code, expiresAt := t0 + otpTTL, attempts := 0 } :=
    mapGet_mapSet_self store identifier _
  have hsucc := verifyOTP_success (storeOTP store identifier code t0) identifier code t1
    _ hr ht1 (by show (0:Nat) < 3; decide) rfl
  have hwf1 : StoreWF (storeOTP store identifier code t0) := StoreWF_mapSet _ _ _ hwf
  have hnone : mapGet (verifyOTP (storeOTP store identifier code t0) identifier code t1).2
      identifier = none := by
    rw [hsucc]
    exact mapGet_mapDelete_self _ _ hwf1
  refine ⟨by rw [hsucc], hnone, ?_⟩
  rw [verifyOTP_none _ _ _ t2 hnone]

/-- Witness for C6 at a concrete input. -/
theorem verify_success_consumes_record_witness :
    (verifyOTP (storeOTP [] "a" "111111" 0) "a" "111111" 1).1 = successResult ∧
    mapGet (verifyOTP (storeOTP [] "a" "111111" 0) "a" "111111" 1).2 "a" = none ∧
    (verifyOTP (verifyOTP (storeOTP [] "a" "111111" 0) "a" "111111" 1).2
      "a" "111111" 2).1 = notFoundResult :=
  verify_success_consumes_record [] "a" "111111" 0 1 2 (by simp [StoreWF, keys]) (by decide)

theorem countKey_eq_zero_of_not_mem (s : Store) (k : String) (h : k ∉ keys s) :
    countKey s k = 0 := by
  induction s with
  | nil => rfl
  | cons e rest ih =>
    obtain ⟨k₀, v₀⟩ := e
    simp only [keys, List.map_cons, List.mem_cons, not_or] at h
    simp only [countKey] at ih ⊢
    rw [List.filter_cons, if_neg (by simpa using fun hh : k₀ = k => h.1 hh.symm)]
    exact ih (by simpa [keys] using h.2)

theorem countKey_mapSet_self (s : Store) (k : String) (v : OTPRecord)
    (hwf : StoreWF s) : countKey (mapSet s k v) k = 1 := by
  induction s with
  | nil => simp [mapSet, countKey]
  | cons e rest ih =>
    obtain ⟨k₀, v₀⟩ := e
    simp only [StoreWF, keys, List.map_cons, List.nodup_cons] at hwf
    by_cases h₀ : k₀ = k
    · subst h₀
      rw [mapSet_cons_self]
      have h0 : countKey rest k₀ = 0 :=
        countKey_eq_zero_of_not_mem rest k₀ (by simpa [keys] using hwf.1)
      simp only [countKey, List.filter_cons] at h0 ⊢
      rw [if_pos (by simp)]
      simp [h0]
    · rw [mapSet_cons_ne _ _ _ _ _ h₀]
      simp only [countKey, List.filter_cons]
      rw [if_neg (by simpa using h₀)]
      exact ih hwf.2

/-- C7: issuing twice for the same identifier leaves exactly one record for
it, holding the second code with `attempts = 0`; a later verify of the first
code (different from the second) never returns success. -/
theorem reissue_replaces_record (store : Store) (identifier c1 c2 : String)
    (t1 t2 t3 : Nat) (hwf : StoreWF store) (hne : c1 ≠ c2) :
    countKey (storeOTP (storeOTP store identifier c1 t1) identifier c2 t2) identifier = 1 ∧
    mapGet (storeOTP (storeOTP store identifier c1 t1) identifier c2 t2) identifier =
      some { otp := c2, expiresAt := t2 + otpTTL, attempts := 0 } ∧
    (verifyOTP (storeOTP (storeOTP store identifier c1 t1) identifier c2 t2)
      identifier c1 t3).1.success = false := by
  have hwf1 : StoreWF (storeOTP store identifier c1 t1) := StoreWF_mapSet _ _ _ hwf
  have hget : mapGet (storeOTP (storeOTP store identifier c1 t1) identifier c2 t2)
      identifier = some { otp := c2, expiresAt := t2 + otpTTL, attempts := 0 } :=
    mapGet_mapSet_self _ _ _
  refine ⟨countKey_mapSet_self _ _ _ hwf1, hget, ?_⟩
  by_cases hexp : t3 > t2 + otpTTL
  · rw [verifyOTP_expired _ _ _ _ _ hget hexp]
    rfl
  · rw [verifyOTP_mismatch _ _ _ _ _ hget hexp (by show (0:Nat) < 3; decide)
      (Ne.symm hne)]
    rfl

/-- Witness for C7 at a concrete input. -/
theorem reissue_replaces_record_witness :
    countKey (storeOTP (storeOTP [] "a" "111111" 0) "a" "222222" 1) "a" = 1 ∧
    mapGet (storeOTP (storeOTP [] "a" "111111" 0) "a" "222222" 1) "a" =
      some { otp := "222222", expiresAt := 1 + otpTTL, attempts := 0 } ∧
    (verifyOTP (storeOTP (storeOTP [] "a" "111111" 0) "a" "222222" 1)
      "a" "111111" 2).1.success = false :=
  reissue_replaces_record [] "a" "111111" "222222" 0 1 2 (by simp [StoreWF, keys])
    (by decide)

/-- C8: a sweeper run at `now` keeps exactly the unexpired records (an entry
survives iff it was in the store and `expiresAt < now` fails), and it is
idempotent: a second run at the same `now` changes nothing and removes 0
additional records. -/
theorem sweepExpired_exact_idempotent (store : Store) (now : Nat) :
    (∀ e : String × OTPRecord, e ∈ sweepExpired store now ↔
      e ∈ store ∧ ¬ e.2.expiresAt < now) ∧
    sweepExpired (sweepExpired store now) now = sweepExpired store now ∧
    sweepRemovedCount (sweepExpired store now) now = 0 := by
  refine ⟨fun e => mem_sweepExpired store now e, ?_, ?_⟩
  · simp [sweepExpired, List.filter_filter]
  · simp [sweepRemovedCount, sweepExpired, List.filter_filter]

theorem attempts_le_of_mem_applyOp (s : Store) (op : StoreOp)
    (hs : ∀ e ∈ s, e.2.attempts ≤ 3) :
    ∀ e ∈ applyOp s op, e.2.attempts ≤ 3 := by
  intro e he
  cases op with
  | issue identifier code now =>
    rcases mem_of_mem_mapSet s identifier _ e he with h | h
    · exact hs e h
    · subst h
      exact Nat.zero_le 3
  | verify identifier code now =>
    simp only [applyOp] at he
    rcases hget : mapGet s identifier with _ | r
    · rw [verifyOTP_none _ _ _ _ hget] at he
      exact hs e he
    · by_cases hexp : now > r.expiresAt
      · rw [verifyOTP_expired _ _ _ _ _ hget hexp] at he
        exact hs e (mem_of_mem_mapDelete _ _ _ he)
      · by_cases hatt : r.attempts ≥ 3
        · rw [verifyOTP_locked _ _ _ _ _ hget hexp hatt] at he
          exact hs e (mem_of_mem_mapDelete _ _ _ he)
        · by_cases hne : r.otp = code
          · rw [verifyOTP_success _ _ _ _ _ hget hexp (Nat.lt_of_not_le hatt) hne] at he
            exact hs e (mem_of_mem_mapDelete _ _ _ he)
          · rw [verifyOTP_mismatch _ _ _ _ _ hget hexp (Nat.lt_of_not_le hatt) hne] at he
            rcases mem_of_mem_mapSet _ _ _ e he with h | h
            · exact hs e h
            · subst h
              have hr3 : r.attempts < 3 := Nat.lt_of_not_le hatt
              show r.attempts + 1 ≤ 3
              omega
  | sweep now =>
    exact hs e ((mem_sweepExpired s now e).mp he).1

theorem foldl_attempts_le (ops : List StoreOp) (s : Store)
    (hs : ∀ e ∈ s, e.2.attempts ≤ 3) :
    ∀ e ∈ ops.foldl applyOp s, e.2.attempts ≤ 3 := by
  induction ops generalizing s with
  | nil => exact hs
  | cons op rest ih =>
    exact ih (applyOp s op) (attempts_le_of_mem_applyOp s op hs)

/-- C9: in every store reachable from the empty store by any sequence of
issue, verify and sweep operations, every record satisfies
`attempts ≤ 3` (and `0 ≤ attempts` holds by the `Nat` type): issue
initializes `attempts = 0`, the mismatch branch increments only when
`attempts < 3`, and a record at the cap is deleted rather than incremented. -/
theorem reachable_attempts_le_three (ops : List StoreOp) (e : String × OTPRecord)
    (h : e ∈ runOps ops) : e.2.attempts ≤ 3 :=
  foldl_attempts_le ops [] (by simp) e h

/-- Witness for C9: a reachable store holding a record with one failed
attempt; its `attempts` is within the cap. -/
theorem reachable_attempts_le_three_witness :
    ("a", (⟨"111111", 600000, 1⟩ : OTPRecord)) ∈
      runOps [.issue "a" "111111" 0, .verify "a" "000000" 1] ∧
    (("a", (⟨"111111", 600000, 1⟩ : OTPRecord))).2.attempts ≤ 3 :=
  ⟨by decide, reachable_attempts_le_three [.issue "a" "111111" 0, .verify "a" "000000" 1]
    ("a", ⟨"111111", 600000, 1⟩) (by decide)⟩

/-- C10: a verify call that hits the mismatch branch returns `Mismatch` and
mutates only the `attempts` field of that identifier's record — the stored
code and `expiresAt` are unchanged — and leaves the records of every other
identifier untouched. -/
theorem mismatch_frame (store : Store) (identifier code : String) (now : Nat)
    (r : OTPRecord) (hget : mapGet store identifier = some r)
    (hexp : ¬ now > r.expiresAt) (hatt : r.attempts < 3) (hne : r.otp ≠ code) :
    (verifyOTP store identifier code now).1 = mismatchResult ∧
    mapGet (verifyOTP store identifier code now).2 identifier =
      some { otp := r.otp, expiresAt := r.expiresAt, attempts := r.attempts + 1 } ∧
    (∀ other : String, other ≠ identifier →
      mapGet (verifyOTP store identifier code now).2 other = mapGet store other) := by
  have h := verifyOTP_mismatch store identifier code now r hget hexp hatt hne
  refine ⟨by rw [h], ?_, fun other hother => ?_⟩
  · rw [h]
    exact mapGet_mapSet_self _ _ _
  · rw [h]
    exact mapGet_mapSet_ne store identifier other _ hother

/-- Witness for C10: a two-identifier store; a mismatch on "a" bumps only the
`attempts` of "a" and leaves "b" untouched. -/
theorem mismatch_frame_witness :
    (verifyOTP [("a", ⟨"111111", 10, 0⟩), ("b", ⟨"222222", 10, 0⟩)]
      "a" "000000" 5).1 = mismatchResult ∧
    mapGet (verifyOTP [("a", ⟨"111111", 10, 0⟩), ("b", ⟨"222222", 10, 0⟩)]
      "a" "000000" 5).2 "a" = some ⟨"111111", 10, 1⟩ ∧
    mapGet (verifyOTP [("a", ⟨"111111", 10, 0⟩), ("b", ⟨"222222", 10, 0⟩)]
      "a" "000000" 5).2 "b" =
      mapGet [("a", ⟨"111111", 10, 0⟩), ("b", ⟨"222222", 10, 0⟩)] "b" := by
  have h := mismatch_frame [("a", ⟨"111111", 10, 0⟩), ("b", ⟨"222222", 10, 0⟩)]
    "a" "000000" 5 ⟨"111111", 10, 0⟩ (by decide) (by decide) (by decide) (by decide)
  exact ⟨h.1, h.2.1, h.2.2 "b" (by decide)⟩

/-! ### Code generator lemmas -/

theorem natToString_length (n : Nat) :
    (natToString n).length = (Nat.digits 10 n).length := by
  simp [natToString, String.length, List.asString]

theorem natToString_length_six (v : Nat) (hlo : 100000 ≤ v) (hhi : v ≤ 999999) :
    (natToString v).length = 6 := by
  rw [natToString_length, Nat.digits_len 10 v (by norm_num) (by omega)]
  have hlog : Nat.log 10 v = 5 :=
    Nat.log_eq_of_pow_le_of_lt_pow (by norm_num; omega) (by norm_num; omega)
  omega

theorem natToString_all_digits (n : Nat) :
    ∀ c ∈ (natToString n).data, c.isDigit = true := by
  intro c hc
  simp only [natToString, List.asString] at hc
  rw [List.mem_map] at hc
  obtain ⟨d, hd, rfl⟩ := hc
  have hd10 : d < 10 := Nat.digits_lt_base (by norm_num) (List.mem_reverse.mp hd)
  simp only [digitChar]
  interval_cases d <;> decide

theorem genValue_preimage (v : Nat) (hlo : 100000 ≤ v) (hhi : v ≤ 999999) :
    {q : ℚ | 0 ≤ q ∧ q < 1 ∧ genValue q = v} =
      Set.Ico ((v - 100000 : ℚ) / 900000) ((v - 99999 : ℚ) / 900000) := by
  have hv100 : (100000:ℚ) ≤ (v:ℚ) := by exact_mod_cast hlo
  have hv999 : (v:ℚ) ≤ 999999 := by exact_mod_cast hhi
  ext q
  simp only [Set.mem_setOf_eq, Set.mem_Ico]
  constructor
  · rintro ⟨hq0, hq1, hv⟩
    simp only [genValue] at hv
    have hx0 : (0:ℚ) ≤ 100000 + q * 900000 := by nlinarith
    have hiff := (Nat.floor_eq_iff hx0).mp hv
    constructor
    · rw [div_le_iff₀ (by norm_num : (0:ℚ) < 900000)]
      linarith [hiff.1]
    · rw [lt_div_iff₀ (by norm_num : (0:ℚ) < 900000)]
      linarith [hiff.2]
  · rintro ⟨hq0, hq1⟩
    have hq0' : (0:ℚ) ≤ q := by
      refine le_trans ?_ hq0
      apply div_nonneg _ (by norm_num)
      linarith
    have hq1' : q < 1 := by
      refine lt_of_lt_of_le hq1 ?_
      rw [div_le_one (by norm_num : (0:ℚ) < 900000)]
      linarith
    rw [div_le_iff₀ (by norm_num : (0:ℚ) < 900000)] at hq0
    rw [lt_div_iff₀ (by norm_num : (0:ℚ) < 900000)] at hq1
    have hx0 : (0:ℚ) ≤ 100000 + q * 900000 := by nlinarith
    refine ⟨hq0', hq1', ?_⟩
    simp only [genValue]
    exact (Nat.floor_eq_iff hx0).mpr ⟨by linarith, by linarith⟩

/-- C5: for every value of the random source, the generated code is a string
of exactly 6 decimal digits whose numeric value lies in [100000, 999999]
(so never leading-zero padded); and each value in that inclusive range is
equally likely over the random source: its preimage under the generator is an
interval of the unit interval of length exactly 1/900000, the same for every
value. -/
theorem generateOTP_six_digits_uniform (r : ℚ) (h0 : 0 ≤ r) (h1 : r < 1) :
    100000 ≤ genValue r ∧ genValue r ≤ 999999 ∧
    (generateOTP r).length = 6 ∧
    (∀ c ∈ (generateOTP r).data, c.isDigit = true) ∧
    (∀ v : Nat, 100000 ≤ v → v ≤ 999999 →
      {q : ℚ | 0 ≤ q ∧ q < 1 ∧ genValue q = v} =
        Set.Ico ((v - 100000 : ℚ) / 900000) ((v - 99999 : ℚ) / 900000)) ∧
    (∀ v : Nat, (v - 99999 : ℚ) / 900000 - (v - 100000 : ℚ) / 900000 = 1 / 900000) := by
  have hx0 : (0:ℚ) ≤ 100000 + r * 900000 := by nlinarith
  have hlo : 100000 ≤ genValue r := by
    simp only [genValue]
    exact Nat.le_floor (by push_cast; nlinarith)
  have hhi : genValue r ≤ 999999 := by
    simp only [genValue]
    have : ⌊(100000 : ℚ) + r * 900000⌋₊ < 1000000 :=
      (Nat.floor_lt hx0).mpr (by push_cast; nlinarith)
    omega
  refine ⟨hlo, hhi, natToString_length_six _ hlo hhi, natToString_all_digits _,
    fun v hv1 hv2 => genValue_preimage v hv1 hv2, fun v => by ring⟩

/-- Witness for C5: the random source at 0 satisfies the hypotheses; the code
has value 100000, length 6, and the preimage of 123456 is the stated
interval. -/
theorem generateOTP_six_digits_uniform_witness :
    (0:ℚ) ≤ 0 ∧ (0:ℚ) < 1 ∧
    100000 ≤ genValue 0 ∧ genValue 0 ≤ 999999 ∧ (generateOTP 0).length = 6 ∧
    {q : ℚ | 0 ≤ q ∧ q < 1 ∧ genValue q = 123456} =
      Set.Ico ((123456 - 100000 : ℚ) / 900000) ((123456 - 99999 : ℚ) / 900000) := by
  have h := generateOTP_six_digits_uniform 0 le_rfl (by norm_num)
  exact ⟨le_rfl, by norm_num, h.1, h.2.1, h.2.2.1,
    h.2.2.2.2.1 123456 (by norm_num) (by norm_num)⟩
